import Mathlib

/-!
# Verification of the PandaPrint upload pipeline

A shallow embedding of `pandaprint/server.py`: the archive splitter
(`PrintAPI._parse_file`), the upload orchestrator (`PrintAPI.upload`), the
version endpoint (`PrintAPI.version`) and the implicit-TLS FTP client quirks
(`FTPS.makepasv`, the `FTPS.sock` setter).

Filenames are modelled as `List Char` (Python `str`), file contents as
`List Nat` (Python `bytes`).  Python exceptions (`ValueError` from unpacking
`fn.split('.', 1)`, `KeyError` from a failed registry lookup) are modelled by
`Option`/`Except`: `none` / `.error` means the Python code raises.
-/

/-- `s.data` written positionally, to keep concrete names readable. -/
def chars (s : String) : List Char := s.data

/-! ## Python string primitives -/

/-- Python `s.split(sep, 1)` followed by unpacking into two variables:
`some (before, after)` splits at the first occurrence of `sep`; `none` models
the `ValueError` raised when `sep` does not occur. -/
def pySplit1 (sep : Char) : List Char → Option (List Char × List Char)
  | [] => none
  | c :: cs =>
    if c = sep then some ([], cs)
    else
      match pySplit1 sep cs with
      | none => none
      | some (b, e) => some (c :: b, e)

/-- The part of `fn` before the last `sep`, or all of `fn` when `sep` is
absent: Python `fn.rsplit(sep, 1)[0]`. -/
def pyRSplitBase (sep : Char) (fn : List Char) : List Char :=
  match pySplit1 sep fn.reverse with
  | none => fn
  | some (_, rest) => rest.reverse

/-- Python `needle in hay`: contiguous-substring test. -/
def listContains (needle : List Char) : List Char → Bool
  | [] => needle.isEmpty
  | c :: cs => needle.isPrefixOf (c :: cs) || listContains needle cs

/-- Fuel-indexed helper for `pyReplace`; the fuel keeps the recursion
structural (and hence kernel-reducible) while faithfully following Python's
left-to-right, non-overlapping scan. -/
def pyReplaceAux (needle repl : List Char) : Nat → List Char → List Char
  | _, [] => []
  | 0, s => s
  | fuel + 1, c :: cs =>
    if needle.isPrefixOf (c :: cs) && !needle.isEmpty then
      repl ++ pyReplaceAux needle repl fuel (cs.drop (needle.length - 1))
    else
      c :: pyReplaceAux needle repl fuel cs

/-- Python `s.replace(needle, repl)` for a nonempty `needle`: replace every
non-overlapping occurrence, scanning left to right. -/
def pyReplace (needle repl s : List Char) : List Char :=
  pyReplaceAux needle repl s.length s

/-- `digitChar d` is the decimal digit character for `d < 10`. -/
def digitChar (d : Nat) : Char := Char.ofNat (48 + d)

/-- Fuel-indexed helper for `natStr`. -/
def natStrAux : Nat → Nat → List Char
  | 0, _ => []
  | _ + 1, 0 => []
  | fuel + 1, n + 1 => natStrAux fuel ((n + 1) / 10) ++ [digitChar ((n + 1) % 10)]

/-- Python `str(n)` for a natural number: decimal rendering. -/
def natStr (n : Nat) : List Char :=
  if n = 0 then ['0'] else natStrAux (n + 1) n

/-- Python's ASCII lowercasing of one character (sufficient for the inputs the
server compares: the form-field value and the literal `'true'`). -/
def asciiLowerChar (c : Char) : Char :=
  if 65 ≤ c.toNat && c.toNat ≤ 90 then Char.ofNat (c.toNat + 32) else c

/-- Python `s.lower()` restricted to ASCII. -/
def asciiLower (s : List Char) : List Char := s.map asciiLowerChar

/-! ## The archive model -/

/-- One member of a ZIP archive: its path and its (uncompressed) content. -/
structure ZipEntry where
  name : List Char
  content : List Nat
deriving DecidableEq

/-- The uploaded file as the server sees it: the multipart filename, the raw
archive bytes (what `shutil.copyfileobj` copies into the temp file), and the
ZIP members those bytes decode to (`zipfile.ZipFile` over the temp file). -/
structure UploadFile where
  filename : List Char
  rawBytes : List Nat
  entries : List ZipEntry
deriving DecidableEq

/-- `zf.namelist()`. -/
def namelist (zf : List ZipEntry) : List (List Char) := zf.map ZipEntry.name

/-- `zf.read(fn)`: `zipfile` resolves a name through `NameToInfo`, where a
duplicated name maps to the last entry bearing it.  (The callers below only
read names taken from `namelist`, so the `[]` default is never reached.) -/
def zfRead (zf : List ZipEntry) (fn : List Char) : List Nat :=
  match (zf.filter (fun e => e.name = fn)).getLast? with
  | some e => e.content
  | none => []

/-- `'Metadata/'`. -/
def metaDir : List Char := chars "Metadata/"

/-- `'.gcode'`. -/
def gcodeExt : List Char := chars ".gcode"

/-- `x.startswith('Metadata/') and x.endswith('.gcode')` — membership in the
plate set (server.py line 146). -/
def isGcodeName (fn : List Char) : Bool :=
  metaDir.isPrefixOf fn && gcodeExt.isSuffixOf fn

/-- The names of the plate-set members of the upload, in archive order. -/
def gcodeNames (u : UploadFile) : List (List Char) :=
  (namelist u.entries).filter isGcodeName

/-- The plate count `len(gcode_files)`. -/
def gcodeCount (u : UploadFile) : Nat := (gcodeNames u).length

/-! ## The splitter (`PrintAPI._parse_file`, server.py lines 140-175) -/

/-- `fn.split('.', 1)` as used on member names (server.py lines 157 and 167). -/
def splitDot1 (fn : List Char) : Option (List Char × List Char) := pySplit1 '.' fn

/-- The selection test of the plate loop (server.py lines 155-162): a
non-metadata member is always kept; a metadata member is kept when
`str(plate_no)` occurs in the part of its name before the first `'.'`;
`none` models the `ValueError` when a metadata name has no `'.'`. -/
def selectMember (i : Nat) (fn : List Char) : Option Bool :=
  if metaDir.isPrefixOf fn then
    match splitDot1 fn with
    | none => none
    | some (base, _) => some (listContains (natStr i) base)
  else some true

/-- The `plate` list built for plate `i` (server.py lines 154-162). -/
def buildPlateNames (i : Nat) : List (List Char) → Option (List (List Char))
  | [] => some []
  | fn :: rest =>
    match selectMember i fn with
    | none => none
    | some b =>
      match buildPlateNames i rest with
      | none => none
      | some tail => some (if b then fn :: tail else tail)

/-- The selection test as a total Boolean predicate; `buildPlateNames` is
shown below to compute exactly `List.filter` of this predicate whenever it
succeeds. -/
def selCodeBase (i : Nat) (fn : List Char) : Bool :=
  if metaDir.isPrefixOf fn then
    match splitDot1 fn with
    | none => false
    | some (base, _) => listContains (natStr i) base
  else true

/-- Modelled from the claim's words, for comparison with `selCodeBase`: keep a
metadata member when `str(i)` occurs anywhere in its (un-renamed) path, not
just in the part before the first `'.'`. -/
def selSpecClaim (i : Nat) (fn : List Char) : Bool :=
  if metaDir.isPrefixOf fn then listContains (natStr i) fn else true

/-- The rename of one member written into plate `i`'s archive (server.py
lines 167-172): split at the first `'.'`, replace every occurrence of
`str(i)` in the base by `'1'`, re-attach the extension chain. -/
def renameMember (i : Nat) (fn : List Char) : Option (List Char) :=
  match splitDot1 fn with
  | none => none
  | some (base, ext) => some (pyReplace (natStr i) ['1'] base ++ '.' :: ext)

/-- The members written into plate `i`'s new archive (server.py lines
164-173): each selected name renamed, paired with `zf.read(fn)`. -/
def buildOutEntries (zf : List ZipEntry) (i : Nat) : List (List Char) → Option (List ZipEntry)
  | [] => some []
  | fn :: rest =>
    match renameMember i fn with
    | none => none
    | some nm =>
      match buildOutEntries zf i rest with
      | none => none
      | some tail => some (ZipEntry.mk nm (zfRead zf fn) :: tail)

/-- One split output: either the original upload bytes passed through
(single-plate case) or a freshly written archive with the given members. -/
inductive OutContent where
  | original (bytes : List Nat)
  | rezip (entries : List ZipEntry)
deriving DecidableEq

/-- The member list of plate `i`'s output archive. -/
def buildPlate (u : UploadFile) (i : Nat) : Option (List ZipEntry) :=
  match buildPlateNames i (namelist u.entries) with
  | none => none
  | some plate => buildOutEntries u.entries i plate

/-- `f'{basename}-{plate_no}.3mf'` (server.py line 175). -/
def outName (u : UploadFile) (i : Nat) : List Char :=
  pyRSplitBase '.' u.filename ++ ('-' :: (natStr i ++ ('.' :: chars "3mf")))

/-- `range(1, n+1)`. -/
def plateRange (n : Nat) : List Nat := (List.range n).map (· + 1)

/-- The outputs yielded by the plate loop for the given plate numbers. -/
def buildOutputs (u : UploadFile) : List Nat → Option (List (List Char × OutContent))
  | [] => some []
  | i :: rest =>
    match buildPlate u i with
    | none => none
    | some es =>
      match buildOutputs u rest with
      | none => none
      | some tail => some ((outName u i, OutContent.rezip es) :: tail)

/-- `PrintAPI._parse_file`, fully consumed: the list of
`(filename, content)` pairs the generator yields, or `none` when it raises. -/
def parseFile (u : UploadFile) : Option (List (List Char × OutContent)) :=
  if gcodeCount u = 1 then
    some [(u.filename, OutContent.original u.rawBytes)]
  else
    buildOutputs u (plateRange (gcodeCount u))

/-- The canonical metadata machine-code path of plate `i`. -/
def canonName (i : Nat) : List Char :=
  chars "Metadata/plate_" ++ natStr i ++ chars ".gcode"

/-! ## The upload orchestrator (`PrintAPI.upload`, server.py lines 177-222) -/

/-- A device from the registry (`Printer.__init__`): display name, host,
serial, pre-shared key and the optional boolean print-option overrides (only
the six recognized keys can occur, so the `update` into the print command can
never touch `param` or `url`). -/
structure Printer where
  name : List Char
  host : List Char
  serial : List Char
  key : List Char
  print_options : List (List Char × Bool)
deriving DecidableEq

/-- The outbound MQTT print command, restricted to the fields the claims are
about: `param`, `url`, and the merged device option overrides.  The remaining
fields of `print_data` are the constants of server.py lines 197-213. -/
structure PrintCommand where
  param : List Char
  url : List Char
  options : List (List Char × Bool)
deriving DecidableEq

/-- The outbound network effects of one request, in program order. -/
inductive Event where
  | ftpConnect (host : List Char) (port : Nat)
  | ftpLogin (user : List Char) (key : List Char)
  | ftpProtP
  | ftpStor (filename : List Char) (content : OutContent)
  | mqttPublish (topic : List Char) (command : PrintCommand)
  | mqttEnsureConnected (host : List Char) (port : Nat)
deriving DecidableEq

/-- Is this event a control-channel publish? -/
def isPublish : Event → Bool
  | Event.mqttPublish _ _ => true
  | _ => false

/-- The filename of a transfer event (`STOR /model/<filename>`). -/
def storName : Event → Option (List Char)
  | Event.ftpStor fn _ => some fn
  | _ => none

/-- The filename of the first transfer in a trace. -/
def firstStorName (tr : List Event) : Option (List Char) :=
  (tr.filterMap storName).head?

/-- `str(kw.get('print', False))`: an absent form field renders as
`'False'`. -/
def pyStrOfFlag : Option (List Char) → List Char
  | none => chars "False"
  | some s => s

/-- `do_print = str(kw.get('print', False)).lower() == 'true'`
(server.py line 181). -/
def doPrint (flag : Option (List Char)) : Bool :=
  asciiLower (pyStrOfFlag flag) == chars "true"

/-- An f-string interpolation of a possibly-`None` value: Python renders
`None` as the four characters `None`. -/
def pyFormatOpt : Option (List Char) → List Char
  | none => chars "None"
  | some s => s

/-- `f'device/{printer.serial}/request'` (server.py line 217). -/
def printTopic (p : Printer) : List Char :=
  chars "device/" ++ p.serial ++ chars "/request"

/-- The print command built on server.py lines 197-214: the hard-coded
`param`, the `url` built from the first transferred filename, and the device
option overrides merged by `print_data.update(printer.print_options)`. -/
def printCommand (p : Printer) (first : Option (List Char)) : PrintCommand :=
  PrintCommand.mk (chars "Metadata/plate_1.gcode")
    (chars "file:///sdcard/model/" ++ pyFormatOpt first) p.print_options

/-- The FTP part of an upload's trace (server.py lines 186-194): connect to
port 990, log in as `bblp` with the device key, switch to protected data
transfer, then store each split output in yield order. -/
def uploadPre (p : Printer) (outs : List (List Char × OutContent)) : List Event :=
  Event.ftpConnect p.host 990 :: Event.ftpLogin (chars "bblp") p.key ::
    Event.ftpProtP :: outs.map (fun o => Event.ftpStor o.1 o.2)

/-- `PrintAPI.upload` for an already-resolved printer: the trace of outbound
effects of a request that runs to completion, or `none` when `_parse_file`
raises (the request then aborts with an unhandled exception and nothing is
published). -/
def upload (p : Printer) (flag : Option (List Char)) (u : UploadFile) :
    Option (List Event) :=
  match parseFile u with
  | none => none
  | some outs =>
    if doPrint flag then
      some (uploadPre p outs ++
        [Event.mqttPublish (printTopic p) (printCommand p (outs.map Prod.fst).head?)])
    else some (uploadPre p outs)

/-! ## The HTTP handlers and the registry -/

/-- The Python exceptions the handlers can leak. -/
inductive PyErr where
  | keyError
  | valueError
deriving DecidableEq

/-- `self.printers[pname]` over the registry dict built in
`PrintAPI.__init__` (a duplicated name maps to the last printer bearing it);
`none` is the `KeyError`. -/
def lookupPrinter (reg : List (List Char × Printer)) (pname : List Char) :
    Option Printer :=
  match (reg.filter (fun pr => pr.1 = pname)).getLast? with
  | some pr => some pr.2
  | none => none

/-- The constant version document (server.py lines 134-138). -/
structure VersionResp where
  api : List Char
  server : List Char
  text : List Char
deriving DecidableEq

/-- `PrintAPI.version`: resolve the device, touch `printer.mqtt` (which on
first use opens the control-channel connection to port 8883), and return the
constant document.  An unknown device raises `KeyError` before any network
activity. -/
def versionHandler (reg : List (List Char × Printer)) (pname : List Char) :
    Except PyErr VersionResp × List Event :=
  match lookupPrinter reg pname with
  | none => (Except.error PyErr.keyError, [])
  | some p =>
    (Except.ok (VersionResp.mk (chars "1.1.0") (chars "1.1.0")
       (chars "OctoPrint 1.1.0 (PandaPrint 1.0)")),
     [Event.mqttEnsureConnected p.host 8883])

/-- `PrintAPI.upload` including the registry lookup.  A parse failure is
reported with the trace truncated at the first error (the FTP session was
already opened when the generator first raises). -/
def uploadHandler (reg : List (List Char × Printer)) (pname : List Char)
    (flag : Option (List Char)) (u : UploadFile) :
    Except PyErr Unit × List Event :=
  match lookupPrinter reg pname with
  | none => (Except.error PyErr.keyError, [])
  | some p =>
    match upload p flag u with
    | none =>
      (Except.error PyErr.valueError,
       [Event.ftpConnect p.host 990, Event.ftpLogin (chars "bblp") p.key,
        Event.ftpProtP])
    | some tr => (Except.ok (), tr)

/-- The HTTP status CherryPy reports for the version endpoint: a handler
result is serialized with status 200, and an exception escaping the handler
is mapped by the framework to 500 (Internal Server Error). -/
def httpStatusVersion : Except PyErr VersionResp → Nat
  | Except.error _ => 500
  | Except.ok _ => 200

/-- 4xx? -/
def isClientError (status : Nat) : Bool :=
  400 ≤ status && status < 500

/-! ## The implicit-TLS FTP client (`FTPS`, server.py lines 40-69) -/

/-- What `ftplib.FTP.makepasv` computes from the six numbers
`h1,h2,h3,h4,p1,p2` of a `227` passive-mode reply: the dotted-quad host and
the port `p1*256 + p2`. -/
def ftpLibMakepasv (h1 h2 h3 h4 p1 p2 : Nat) : List Char × Nat :=
  (natStr h1 ++ '.' :: natStr h2 ++ '.' :: natStr h3 ++ '.' :: natStr h4,
   p1 * 256 + p2)

/-- `FTPS.makepasv` (server.py lines 66-69): discard the host of the
server's reply and reuse the control-connection host; keep the port. -/
def makepasv (controlHost : List Char) (h1 h2 h3 h4 p1 p2 : Nat) :
    List Char × Nat :=
  (controlHost, (ftpLibMakepasv h1 h2 h3 h4 p1 p2).2)

/-- A transport socket: plain, or wrapped in the TLS context identified by
`ctx` (contexts are named by numbers; the control channel's context is
`self.context`). -/
inductive PySocket where
  | plain (id : Nat)
  | wrapped (ctx : Nat) (inner : PySocket)
deriving DecidableEq

/-- `isinstance(value, ssl.SSLSocket)`. -/
def isSSL : PySocket → Bool
  | PySocket.wrapped _ _ => true
  | PySocket.plain _ => false

/-- `context.wrap_socket(value)`: adds one TLS layer in context `ctx`. -/
def wrapSocket (ctx : Nat) (s : PySocket) : PySocket :=
  PySocket.wrapped ctx s

/-- The `FTPS.sock` property setter (server.py lines 51-56): wrap a non-TLS
socket in the control channel's context `ctx`; store `None` or an already
wrapped socket unchanged. -/
def setSock (ctx : Nat) (v : Option PySocket) : Option PySocket :=
  match v with
  | none => none
  | some s => if isSSL s then some s else some (wrapSocket ctx s)

/-! ## Concrete archives and devices used as witnesses and counterexamples -/

/-- The single-plate archive `make_zip_file(1)` of `tests/test_server.py`. -/
def testArchive1 : UploadFile where
  filename := chars "test_upload.3mf"
  rawBytes := [80, 75, 3, 4]
  entries :=
    [ ZipEntry.mk (chars "Metadata/plate_1.png") [1],
      ZipEntry.mk (chars "Metadata/plate_1.gcode") [71, 48, 88, 49, 10],
      ZipEntry.mk (chars "3D/3dmodel.model") [],
      ZipEntry.mk (chars "[Content_Types].xml") [],
      ZipEntry.mk (chars "_rels/.rels") [] ]

/-- The two-plate archive `make_zip_file(2)` of `tests/test_server.py`. -/
def testArchive2 : UploadFile where
  filename := chars "test_multiple.3mf"
  rawBytes := [80, 75]
  entries :=
    [ ZipEntry.mk (chars "Metadata/plate_1.png") [1],
      ZipEntry.mk (chars "Metadata/plate_1.gcode") [71, 48, 88, 49, 10],
      ZipEntry.mk (chars "Metadata/plate_2.png") [2],
      ZipEntry.mk (chars "Metadata/plate_2.gcode") [71, 48, 88, 50, 10],
      ZipEntry.mk (chars "3D/3dmodel.model") [],
      ZipEntry.mk (chars "[Content_Types].xml") [],
      ZipEntry.mk (chars "_rels/.rels") [] ]

/-- Plate 1's output members for `testArchive2`. -/
def testOut1 : List ZipEntry :=
  [ ZipEntry.mk (chars "Metadata/plate_1.png") [1],
    ZipEntry.mk (chars "Metadata/plate_1.gcode") [71, 48, 88, 49, 10],
    ZipEntry.mk (chars "3D/3dmodel.model") [],
    ZipEntry.mk (chars "[Content_Types].xml") [],
    ZipEntry.mk (chars "_rels/.rels") [] ]

/-- Plate 2's output members for `testArchive2`. -/
def testOut2 : List ZipEntry :=
  [ ZipEntry.mk (chars "Metadata/plate_1.png") [2],
    ZipEntry.mk (chars "Metadata/plate_1.gcode") [71, 48, 88, 50, 10],
    ZipEntry.mk (chars "3D/3dmodel.model") [],
    ZipEntry.mk (chars "[Content_Types].xml") [],
    ZipEntry.mk (chars "_rels/.rels") [] ]

/-- The full split of `testArchive2`. -/
def testOuts : List (List Char × OutContent) :=
  [ (chars "test_multiple-1.3mf", OutContent.rezip testOut1),
    (chars "test_multiple-2.3mf", OutContent.rezip testOut2) ]

/-- A two-plate archive that also carries a metadata member without a `'.'`
in its name. -/
def archiveNoDotMember : UploadFile where
  filename := chars "job.3mf"
  rawBytes := [80, 75]
  entries :=
    [ ZipEntry.mk (chars "Metadata/plate_1.gcode") [1],
      ZipEntry.mk (chars "Metadata/plate_2.gcode") [2],
      ZipEntry.mk (chars "Metadata/noext") [] ]

/-- A two-plate archive whose upload filename has extension `zip`. -/
def archiveZipName : UploadFile where
  filename := chars "job.zip"
  rawBytes := [80, 75]
  entries :=
    [ ZipEntry.mk (chars "Metadata/plate_1.gcode") [1],
      ZipEntry.mk (chars "Metadata/plate_2.gcode") [2] ]

/-- A two-plate archive with a shared (non-metadata) member whose name
contains the digit `2`. -/
def archiveSharedDigit : UploadFile where
  filename := chars "job.3mf"
  rawBytes := [80]
  entries :=
    [ ZipEntry.mk (chars "Metadata/plate_1.gcode") [1],
      ZipEntry.mk (chars "Metadata/plate_2.gcode") [2],
      ZipEntry.mk (chars "shared2.txt") [9] ]

/-- A two-plate archive with a metadata member whose only `2` sits after the
first `'.'` of its name. -/
def archiveExtDigit : UploadFile where
  filename := chars "job.3mf"
  rawBytes := [80]
  entries :=
    [ ZipEntry.mk (chars "Metadata/plate_1.gcode") [1],
      ZipEntry.mk (chars "Metadata/plate_2.gcode") [2],
      ZipEntry.mk (chars "Metadata/thing.2x") [7] ]

/-- A concrete registry entry. -/
def examplePrinter : Printer where
  name := chars "alpha"
  host := chars "printer.local"
  serial := chars "serial123"
  key := chars "5678"
  print_options := []

/-- A registry holding only `examplePrinter`. -/
def exampleReg : List (List Char × Printer) := [(chars "alpha", examplePrinter)]

/-- The trace of uploading `testArchive1` to `examplePrinter` with printing
requested. -/
def exampleTrace : List Event :=
  [ Event.ftpConnect (chars "printer.local") 990,
    Event.ftpLogin (chars "bblp") (chars "5678"),
    Event.ftpProtP,
    Event.ftpStor (chars "test_upload.3mf") (OutContent.original [80, 75, 3, 4]),
    Event.mqttPublish (chars "device/serial123/request")
      (PrintCommand.mk (chars "Metadata/plate_1.gcode")
        (chars "file:///sdcard/model/test_upload.3mf") []) ]

/-! ## Sanity checks of the embedding -/

example : natStr 12 = ['1', '2'] := by decide

example : pyReplace (chars "aa") (chars "b") (chars "aaa") = chars "ba" := by decide

example : parseFile testArchive2 = some testOuts := by decide

example : parseFile testArchive1 =
    some [(chars "test_upload.3mf", OutContent.original [80, 75, 3, 4])] := by decide

example : upload examplePrinter (some (chars "true")) testArchive1 =
    some exampleTrace := by decide

/-! ## Helper lemmas about the string primitives -/

theorem pySplit1_append (base ext : List Char) (h : '.' ∉ base) :
    pySplit1 '.' (base ++ '.' :: ext) = some (base, ext) := by
  induction base with
  | nil => simp [pySplit1]
  | cons c cs ih =>
    have hc : ¬ c = '.' := fun hcc => h (hcc ▸ List.mem_cons_self c cs)
    have ih' := ih (fun hm => h (List.mem_cons_of_mem c hm))
    simp [pySplit1, hc, ih']

theorem isPrefixOf_append_self (l t : List Char) : l.isPrefixOf (l ++ t) = true := by
  induction l with
  | nil => cases t <;> rfl
  | cons c cs ih => simp [List.isPrefixOf, ih]

theorem isPrefixOf_self (l : List Char) : l.isPrefixOf l = true := by
  have h := isPrefixOf_append_self l []
  rwa [List.append_nil] at h

theorem pyReplaceAux_nil (needle repl : List Char) (f : Nat) :
    pyReplaceAux needle repl f [] = [] := by
  cases f <;> rfl

theorem pyReplaceAux_fuel (needle repl : List Char) :
    ∀ f g (s : List Char), s.length ≤ f → s.length ≤ g →
      pyReplaceAux needle repl f s = pyReplaceAux needle repl g s := by
  intro f
  induction f using Nat.strong_induction_on with
  | _ f ih =>
    intro g s hf hg
    cases s with
    | nil => rw [pyReplaceAux_nil, pyReplaceAux_nil]
    | cons c cs =>
      cases f with
      | zero => exact absurd hf (by simp)
      | succ f' =>
        cases g with
        | zero => exact absurd hg (by simp)
        | succ g' =>
          have hf' : cs.length ≤ f' := by simpa using hf
          have hg' : cs.length ≤ g' := by simpa using hg
          have hd : (cs.drop (needle.length - 1)).length ≤ cs.length := by
            simp [List.length_drop]
          show (if needle.isPrefixOf (c :: cs) && !needle.isEmpty then
              repl ++ pyReplaceAux needle repl f' (cs.drop (needle.length - 1))
            else c :: pyReplaceAux needle repl f' cs) =
            (if needle.isPrefixOf (c :: cs) && !needle.isEmpty then
              repl ++ pyReplaceAux needle repl g' (cs.drop (needle.length - 1))
            else c :: pyReplaceAux needle repl g' cs)
          by_cases hcond : (needle.isPrefixOf (c :: cs) && !needle.isEmpty) = true
          · rw [if_pos hcond, if_pos hcond,
              ih f' (Nat.lt_succ_self f') g' _ (le_trans hd hf') (le_trans hd hg')]
          · rw [if_neg hcond, if_neg hcond,
              ih f' (Nat.lt_succ_self f') g' cs hf' hg']

theorem pyReplace_cons (needle repl : List Char) (c : Char) (cs : List Char) :
    pyReplace needle repl (c :: cs) =
      if needle.isPrefixOf (c :: cs) && !needle.isEmpty then
        repl ++ pyReplace needle repl (cs.drop (needle.length - 1))
      else c :: pyReplace needle repl cs := by
  show (if needle.isPrefixOf (c :: cs) && !needle.isEmpty then
      repl ++ pyReplaceAux needle repl cs.length (cs.drop (needle.length - 1))
    else c :: pyReplaceAux needle repl cs.length cs) = _
  have hd : (cs.drop (needle.length - 1)).length ≤ cs.length := by
    simp [List.length_drop]
  by_cases hcond : (needle.isPrefixOf (c :: cs) && !needle.isEmpty) = true
  · rw [if_pos hcond, if_pos hcond,
      pyReplaceAux_fuel needle repl cs.length (cs.drop (needle.length - 1)).length _ hd
        (Nat.le_refl _)]
    rfl
  · rw [if_neg hcond, if_neg hcond]
    rfl

theorem pyReplace_boundary (hc : Char) (tl repl : List Char) :
    ∀ pre : List Char, (∀ c ∈ pre, ¬ c = hc) →
      pyReplace (hc :: tl) repl (pre ++ hc :: tl) = pre ++ repl := by
  intro pre
  induction pre with
  | nil =>
    intro _
    rw [List.nil_append, pyReplace_cons]
    have hp : ((hc :: tl).isPrefixOf (hc :: tl) && !(hc :: tl).isEmpty) = true := by
      simp [isPrefixOf_self, List.isEmpty]
    rw [if_pos hp]
    simp [pyReplace, pyReplaceAux_nil, List.drop_length]
  | cons c pre ih =>
    intro h
    have hcne : (hc == c) = false := by
      have hne := h c (List.mem_cons_self c pre)
      simp [beq_iff_eq]
      exact fun he => hne he.symm
    rw [List.cons_append, pyReplace_cons]
    have hp : ((hc :: tl).isPrefixOf (c :: (pre ++ hc :: tl)) && !(hc :: tl).isEmpty) = false := by
      show ((hc == c && tl.isPrefixOf (pre ++ hc :: tl)) && _) = false
      rw [hcne]
      simp
    rw [if_neg (by rw [hp]; simp)]
    rw [ih (fun x hx => h x (List.mem_cons_of_mem c hx))]
    rfl

theorem listContains_append_self (n : List Char) :
    ∀ pre : List Char, listContains n (pre ++ n) = true := by
  intro pre
  induction pre with
  | nil =>
    cases n with
    | nil => rfl
    | cons c cs => simp [listContains, isPrefixOf_self]
  | cons c pre ih => simp [listContains, ih]

/-! ## Helper lemmas about the digits of `natStr` -/

/-- The ten digit characters. -/
def decDigits : List Char := chars "0123456789"

theorem digitChar_mem (d : Nat) (hd : d < 10) : digitChar d ∈ decDigits := by
  interval_cases d <;> decide

theorem natStrAux_digits :
    ∀ f n c, c ∈ natStrAux f n → c ∈ decDigits := by
  intro f
  induction f with
  | zero => intro n c hc; simp [natStrAux] at hc
  | succ f ih =>
    intro n c hc
    cases n with
    | zero => simp [natStrAux] at hc
    | succ n =>
      simp only [natStrAux, List.mem_append, List.mem_singleton] at hc
      rcases hc with hc | hc
      · exact ih _ c hc
      · exact hc ▸ digitChar_mem _ (Nat.mod_lt _ (by omega))

theorem natStr_digits (n : Nat) : ∀ c ∈ natStr n, c ∈ decDigits := by
  intro c hc
  unfold natStr at hc
  by_cases hn : n = 0
  · rw [if_pos hn] at hc
    simp at hc
    rw [hc]
    decide
  · rw [if_neg hn] at hc
    exact natStrAux_digits _ _ c hc

theorem natStr_ne_nil (n : Nat) : natStr n ≠ [] := by
  unfold natStr
  by_cases hn : n = 0
  · rw [if_pos hn]; simp
  · rw [if_neg hn]
    cases n with
    | zero => exact absurd rfl hn
    | succ m => simp [natStrAux]

theorem natStr_no_dot (n : Nat) : '.' ∉ natStr n := by
  intro h
  have := natStr_digits n '.' h
  revert this
  decide

/-! ## Helper lemmas about the splitter -/

theorem selectMember_eq_some (i : Nat) (fn : List Char) (b : Bool)
    (h : selectMember i fn = some b) : selCodeBase i fn = b := by
  unfold selectMember at h
  unfold selCodeBase
  by_cases hp : metaDir.isPrefixOf fn = true
  · rw [if_pos hp] at h ⊢
    rcases hsd : splitDot1 fn with _ | ⟨base, e⟩
    · rw [hsd] at h; cases h
    · rw [hsd] at h
      injection h
  · rw [if_neg hp] at h ⊢
    exact Option.some.inj h

theorem buildPlateNames_eq_filter (i : Nat) :
    ∀ (names sel : List (List Char)), buildPlateNames i names = some sel →
      sel = names.filter (selCodeBase i) := by
  intro names
  induction names with
  | nil =>
    intro sel h
    injection h with h
    simp [h.symm]
  | cons fn rest ih =>
    intro sel h
    unfold buildPlateNames at h
    rcases hsm : selectMember i fn with _ | b
    · rw [hsm] at h; cases h
    · rw [hsm] at h
      rcases hrec : buildPlateNames i rest with _ | tail
      · rw [hrec] at h; cases h
      · rw [hrec] at h
        injection h with h
        have hb : selCodeBase i fn = b := selectMember_eq_some i fn b hsm
        have ht := ih tail hrec
        rw [List.filter_cons, hb]
        cases b <;> simp [← h, ht]

theorem selCodeBase_true_iff (i : Nat) (fn : List Char) :
    selCodeBase i fn = true ↔
      (metaDir.isPrefixOf fn = false ∨
        ∃ base ext, splitDot1 fn = some (base, ext) ∧
          listContains (natStr i) base = true) := by
  unfold selCodeBase
  by_cases hp : metaDir.isPrefixOf fn = true
  · rw [if_pos hp]
    rcases hsd : splitDot1 fn with _ | ⟨base, e⟩ <;> simp [hp, hsd]
  · rw [if_neg hp]
    simp only [Bool.not_eq_true] at hp
    simp [hp]

theorem buildOutEntries_mem (zf : List ZipEntry) (i : Nat) :
    ∀ (sel : List (List Char)) (es : List ZipEntry),
      buildOutEntries zf i sel = some es →
      ∀ fn ∈ sel, ∃ nm, renameMember i fn = some nm ∧
        ZipEntry.mk nm (zfRead zf fn) ∈ es := by
  intro sel
  induction sel with
  | nil => intro es _ fn hfn; cases hfn
  | cons fn0 rest ih =>
    intro es h fn hfn
    unfold buildOutEntries at h
    rcases hrn : renameMember i fn0 with _ | nm0
    · rw [hrn] at h; cases h
    · rw [hrn] at h
      rcases hrec : buildOutEntries zf i rest with _ | tail
      · rw [hrec] at h; cases h
      · rw [hrec] at h
        injection h with h
        rcases List.mem_cons.mp hfn with heq | hmem
        · exact ⟨nm0, heq ▸ hrn, by rw [← h, heq]; exact List.mem_cons_self _ _⟩
        · rcases ih tail hrec fn hmem with ⟨nm, hnm, hin⟩
          exact ⟨nm, hnm, by rw [← h]; exact List.mem_cons_of_mem _ hin⟩

/-! ## Helper lemmas about the canonical plate path -/

theorem canonName_split (i : Nat) :
    splitDot1 (canonName i) =
      some (chars "Metadata/plate_" ++ natStr i, chars "gcode") := by
  have hnd : '.' ∉ chars "Metadata/plate_" ++ natStr i := by
    intro hm
    rcases List.mem_append.mp hm with hm | hm
    · revert hm; decide
    · exact natStr_no_dot i hm
  have h := pySplit1_append (chars "Metadata/plate_" ++ natStr i) (chars "gcode") hnd
  show pySplit1 '.' (canonName i) = _
  rw [show canonName i =
      (chars "Metadata/plate_" ++ natStr i) ++ '.' :: chars "gcode" from rfl]
  exact h

theorem pyReplace_canonBase (i : Nat) :
    pyReplace (natStr i) ['1'] (chars "Metadata/plate_" ++ natStr i) =
      chars "Metadata/plate_1" := by
  rcases hns : natStr i with _ | ⟨hc, tl⟩
  · exact absurd hns (natStr_ne_nil i)
  · have hcdig : hc ∈ decDigits :=
      natStr_digits i hc (by rw [hns]; exact List.mem_cons_self _ _)
    have hdisj : ∀ c ∈ chars "Metadata/plate_", c ∉ decDigits := by decide
    have hpre : ∀ c ∈ chars "Metadata/plate_", ¬ c = hc :=
      fun c hcm he => hdisj c hcm (he ▸ hcdig)
    rw [pyReplace_boundary hc tl ['1'] (chars "Metadata/plate_") hpre]
    decide

theorem metaDir_of_canon (i : Nat) :
    metaDir.isPrefixOf (canonName i) = true := by
  have h : canonName i = metaDir ++ (chars "plate_" ++ (natStr i ++ chars ".gcode")) := by
    show chars "Metadata/plate_" ++ natStr i ++ chars ".gcode" = _
    rw [show chars "Metadata/plate_" = metaDir ++ chars "plate_" from rfl]
    simp [List.append_assoc]
  rw [h]
  exact isPrefixOf_append_self _ _

theorem selCodeBase_canon (i : Nat) : selCodeBase i (canonName i) = true := by
  rw [selCodeBase_true_iff]
  exact Or.inr ⟨_, _, canonName_split i,
    listContains_append_self (natStr i) (chars "Metadata/plate_")⟩

theorem renameMember_canon (i : Nat) :
    renameMember i (canonName i) = some (canonName 1) := by
  unfold renameMember
  rw [show splitDot1 (canonName i) =
      some (chars "Metadata/plate_" ++ natStr i, chars "gcode") from canonName_split i]
  show some (pyReplace (natStr i) ['1'] (chars "Metadata/plate_" ++ natStr i) ++
      '.' :: chars "gcode") = _
  rw [pyReplace_canonBase]
  decide

/-! ## Helper lemmas about the plate loop -/

theorem buildOutputs_map_fst (u : UploadFile) :
    ∀ (is : List Nat) (outs : List (List Char × OutContent)),
      buildOutputs u is = some outs → outs.map Prod.fst = is.map (outName u) := by
  intro is
  induction is with
  | nil =>
    intro outs h
    injection h with h
    rw [← h]
    rfl
  | cons i rest ih =>
    intro outs h
    unfold buildOutputs at h
    rcases hbp : buildPlate u i with _ | es
    · rw [hbp] at h; cases h
    · rw [hbp] at h
      rcases hrec : buildOutputs u rest with _ | tail
      · rw [hrec] at h; cases h
      · rw [hrec] at h
        injection h with h
        rw [← h]
        simp [ih tail hrec]

theorem buildOutputs_get (u : UploadFile) :
    ∀ (is : List Nat) (outs : List (List Char × OutContent)),
      buildOutputs u is = some outs →
      ∀ (k i : Nat), is[k]? = some i →
        ∃ es, buildPlate u i = some es ∧
          outs[k]? = some (outName u i, OutContent.rezip es) := by
  intro is
  induction is with
  | nil => intro outs h k i hk; simp at hk
  | cons i0 rest ih =>
    intro outs h k i hk
    unfold buildOutputs at h
    rcases hbp : buildPlate u i0 with _ | es0
    · rw [hbp] at h; cases h
    · rw [hbp] at h
      rcases hrec : buildOutputs u rest with _ | tail
      · rw [hrec] at h; cases h
      · rw [hrec] at h
        injection h with h
        cases k with
        | zero =>
          simp at hk
          subst hk
          exact ⟨es0, hbp, by rw [← h]; simp⟩
        | succ k =>
          have hk' : rest[k]? = some i := by simpa using hk
          rcases ih tail hrec k i hk' with ⟨es, hes, hout⟩
          exact ⟨es, hes, by rw [← h]; simpa using hout⟩

theorem plateRange_getElem (n k : Nat) (h : k < n) :
    (plateRange n)[k]? = some (k + 1) := by
  unfold plateRange
  rw [List.getElem?_map]
  simp [List.getElem?_range, h]

/-! ## Claim C1 -/

/-- C1: for an archive whose plate set has exactly one member, `split`
returns a single output: the original filename with the original archive
bytes, verbatim. -/
theorem C1_single_plate_passthrough (u : UploadFile) (h : gcodeCount u = 1) :
    parseFile u = some [(u.filename, OutContent.original u.rawBytes)] := by
  simp [parseFile, h]

theorem C1_single_plate_passthrough_witness :
    gcodeCount testArchive1 = 1 ∧
      parseFile testArchive1 =
        some [(testArchive1.filename, OutContent.original testArchive1.rawBytes)] :=
  ⟨by decide, C1_single_plate_passthrough testArchive1 (by decide)⟩

/-! ## Claim C2 -/

/-- C2 counterexample: a multi-plate archive uploaded as `job.zip` is split
into outputs named `job-1.3mf`, `job-2.3mf` — the `.3mf` suffix is
hard-coded (server.py line 175), the upload's own extension `zip` is not
carried over. -/
theorem C2_counterexample :
    gcodeCount archiveZipName = 2
    ∧ parseFile archiveZipName =
        some [(chars "job-1.3mf",
               OutContent.rezip [ZipEntry.mk (chars "Metadata/plate_1.gcode") [1]]),
              (chars "job-2.3mf",
               OutContent.rezip [ZipEntry.mk (chars "Metadata/plate_1.gcode") [2]])]
    ∧ ¬ chars "job-1.3mf" = chars "job-1.zip" := by
  decide

/-- C2 (amended): a successful split of an archive with plate-set size
`N ≥ 2` yields exactly `N` outputs, in plate order, named
`<base>-<i>.3mf` for `i = 1..N` where `<base>` is the upload filename
stripped of its last extension — the output extension is always `3mf`. -/
theorem C2_split_names_and_count (u : UploadFile)
    (outs : List (List Char × OutContent)) (h : parseFile u = some outs)
    (hN : 2 ≤ gcodeCount u) :
    outs.length = gcodeCount u
    ∧ outs.map Prod.fst =
        (plateRange (gcodeCount u)).map
          (fun i => pyRSplitBase '.' u.filename ++
            ('-' :: (natStr i ++ ('.' :: chars "3mf")))) := by
  have hne : ¬ gcodeCount u = 1 := by omega
  rw [parseFile, if_neg hne] at h
  have hmap := buildOutputs_map_fst u _ _ h
  constructor
  · have hlen := congrArg List.length hmap
    simpa [plateRange] using hlen
  · exact hmap

theorem C2_split_names_and_count_witness :
    testOuts.length = gcodeCount testArchive2
    ∧ testOuts.map Prod.fst =
        (plateRange (gcodeCount testArchive2)).map
          (fun i => pyRSplitBase '.' testArchive2.filename ++
            ('-' :: (natStr i ++ ('.' :: chars "3mf")))) :=
  C2_split_names_and_count testArchive2 testOuts (by decide) (by decide)

/-! ## Claim C3 -/

/-- C3 counterexample: in `archiveSharedDigit`, the shared member
`shared2.txt` is carried into plate 2's output under the rewritten name
`shared1.txt` — the rename loop (server.py lines 166-173) is applied to
every selected member, shared ones included, so plate 2's output does not
contain the source member `shared2.txt`. -/
theorem C3_counterexample :
    parseFile archiveSharedDigit =
      some [(chars "job-1.3mf",
             OutContent.rezip
               [ZipEntry.mk (chars "Metadata/plate_1.gcode") [1],
                ZipEntry.mk (chars "shared2.txt") [9]]),
            (chars "job-2.3mf",
             OutContent.rezip
               [ZipEntry.mk (chars "Metadata/plate_1.gcode") [2],
                ZipEntry.mk (chars "shared1.txt") [9]])]
    ∧ metaDir.isPrefixOf (chars "shared2.txt") = false
    ∧ chars "shared2.txt" ∈ namelist archiveSharedDigit.entries
    ∧ chars "shared2.txt" ∉
        ([ZipEntry.mk (chars "Metadata/plate_1.gcode") [2],
          ZipEntry.mk (chars "shared1.txt") [9]]).map ZipEntry.name := by
  decide

/-- C3 (amended): in a successful multi-plate split, plate `k+1`'s output
contains every shared (non-metadata-prefixed) source member's content,
under the name produced by the same plate-index rewrite (unchanged whenever
the member's base does not contain the index); and whenever the source has
the canonically named machine-code member `Metadata/plate_<k+1>.gcode`, the
output contains its content under the canonical plate-1 path, regardless of
`k`. -/
theorem C3_split_output_members (u : UploadFile)
    (outs : List (List Char × OutContent)) (h : parseFile u = some outs)
    (hN : 2 ≤ gcodeCount u) (k : Nat) (nm : List Char) (es : List ZipEntry)
    (hout : outs[k]? = some (nm, OutContent.rezip es)) :
    (∀ fn ∈ namelist u.entries, metaDir.isPrefixOf fn = false →
        ∃ nm2, renameMember (k + 1) fn = some nm2 ∧
          ZipEntry.mk nm2 (zfRead u.entries fn) ∈ es)
    ∧ (canonName (k + 1) ∈ namelist u.entries →
        ZipEntry.mk (canonName 1) (zfRead u.entries (canonName (k + 1))) ∈ es) := by
  have hne : ¬ gcodeCount u = 1 := by omega
  rw [parseFile, if_neg hne] at h
  have hkl : k < outs.length := by
    by_contra hge
    rw [List.getElem?_eq_none (by omega)] at hout
    cases hout
  have hmap := buildOutputs_map_fst u _ _ h
  have hlen : outs.length = gcodeCount u := by
    have hl := congrArg List.length hmap
    simpa [plateRange] using hl
  have hk2 : k < gcodeCount u := hlen ▸ hkl
  rcases buildOutputs_get u _ _ h k (k + 1) (plateRange_getElem _ _ hk2) with
    ⟨es0, hbp, hout0⟩
  rw [hout] at hout0
  injection hout0 with hout0
  simp only [Prod.mk.injEq, OutContent.rezip.injEq] at hout0
  obtain ⟨-, hes⟩ := hout0
  subst hes
  unfold buildPlate at hbp
  rcases hsel : buildPlateNames (k + 1) (namelist u.entries) with _ | sel
  · rw [hsel] at hbp; cases hbp
  · rw [hsel] at hbp
    have hfil := buildPlateNames_eq_filter _ _ _ hsel
    constructor
    · intro fn hfn hnp
      have hsc : selCodeBase (k + 1) fn = true := by
        rw [selCodeBase_true_iff]
        exact Or.inl hnp
      have hmem : fn ∈ sel := by
        rw [hfil]
        exact List.mem_filter.mpr ⟨hfn, hsc⟩
      exact buildOutEntries_mem u.entries (k + 1) sel es hbp fn hmem
    · intro hcn
      have hmem : canonName (k + 1) ∈ sel := by
        rw [hfil]
        exact List.mem_filter.mpr ⟨hcn, selCodeBase_canon (k + 1)⟩
      rcases buildOutEntries_mem u.entries (k + 1) sel es hbp _ hmem with
        ⟨nm2, hnm2, hin⟩
      rw [renameMember_canon (k + 1)] at hnm2
      rw [← Option.some.inj hnm2] at hin
      exact hin

theorem C3_split_output_members_witness :
    (∀ fn ∈ namelist testArchive2.entries, metaDir.isPrefixOf fn = false →
        ∃ nm2, renameMember 2 fn = some nm2 ∧
          ZipEntry.mk nm2 (zfRead testArchive2.entries fn) ∈ testOut2)
    ∧ (canonName 2 ∈ namelist testArchive2.entries →
        ZipEntry.mk (canonName 1) (zfRead testArchive2.entries (canonName 2)) ∈ testOut2) :=
  C3_split_output_members testArchive2 testOuts (by decide) (by decide) 1
    (chars "test_multiple-2.3mf") testOut2 (by decide)

/-! ## Claim C4 -/

/-- C4: the per-member rewrite of the plate loop splits a name at its first
dot, substitutes `str(i) → '1'` only in the part before it, and re-attaches
the whole extension chain verbatim. -/
theorem C4_rename_only_before_extension (i : Nat) (base ext : List Char)
    (h : '.' ∉ base) :
    renameMember i (base ++ '.' :: ext) =
      some (pyReplace (natStr i) ['1'] base ++ '.' :: ext) := by
  unfold renameMember splitDot1
  rw [pySplit1_append base ext h]

theorem C4_rename_only_before_extension_witness :
    ('.' ∉ chars "Metadata/plate_2")
    ∧ renameMember 2 (chars "Metadata/plate_2" ++ '.' :: chars "gcode.md5") =
        some (pyReplace (natStr 2) ['1'] (chars "Metadata/plate_2") ++
          '.' :: chars "gcode.md5") :=
  ⟨by decide, C4_rename_only_before_extension 2 (chars "Metadata/plate_2")
    (chars "gcode.md5") (by decide)⟩

/-! ## Claim C5 -/

/-- C5 counterexample: for plate 2 of `archiveExtDigit`, the member
`Metadata/thing.2x` is *not* selected (its base `Metadata/thing` contains no
`2`), although its full un-renamed path does contain `2`, so the
claim-following selection (`selSpecClaim`) would keep it. -/
theorem C5_counterexample :
    gcodeCount archiveExtDigit = 2
    ∧ buildPlateNames 2 (namelist archiveExtDigit.entries) =
        some [chars "Metadata/plate_2.gcode"]
    ∧ (namelist archiveExtDigit.entries).filter (selSpecClaim 2) =
        [chars "Metadata/plate_2.gcode", chars "Metadata/thing.2x"] := by
  decide

/-- C5 (amended): the members selected for plate `i` are exactly every
non-metadata-prefixed member plus every metadata-prefixed member whose
portion *before the first dot* contains the decimal string of `i` as a
substring (matching is on the un-renamed base, so plate 1 still also
matches members of plate 10). -/
theorem C5_selection_characterization (i : Nat) (names sel : List (List Char))
    (h : buildPlateNames i names = some sel) :
    ∀ fn, fn ∈ sel ↔
      (fn ∈ names ∧
        (metaDir.isPrefixOf fn = false ∨
          ∃ base ext, splitDot1 fn = some (base, ext) ∧
            listContains (natStr i) base = true)) := by
  intro fn
  rw [buildPlateNames_eq_filter i names sel h, List.mem_filter,
    selCodeBase_true_iff]

theorem C5_selection_characterization_witness :
    chars "Metadata/thing.2x" ∈ [chars "Metadata/plate_2.gcode"] ↔
      (chars "Metadata/thing.2x" ∈ namelist archiveExtDigit.entries ∧
        (metaDir.isPrefixOf (chars "Metadata/thing.2x") = false ∨
          ∃ base ext, splitDot1 (chars "Metadata/thing.2x") = some (base, ext) ∧
            listContains (natStr 2) base = true)) :=
  C5_selection_characterization 2 (namelist archiveExtDigit.entries)
    [chars "Metadata/plate_2.gcode"] (by decide) (chars "Metadata/thing.2x")

/-! ## Claim C8 -/

/-- C8: `FTPS.makepasv` returns the control-connection host — whatever host
the server's 227 reply carried — together with the reply's port
`p1*256 + p2`; the result does not depend on the reply's host quad. -/
theorem C8_makepasv_ignores_reply_host (controlHost : List Char)
    (h1 h2 h3 h4 p1 p2 g1 g2 g3 g4 : Nat) :
    makepasv controlHost h1 h2 h3 h4 p1 p2 = (controlHost, p1 * 256 + p2)
    ∧ makepasv controlHost h1 h2 h3 h4 p1 p2 =
        makepasv controlHost g1 g2 g3 g4 p1 p2 :=
  ⟨rfl, rfl⟩

/-! ## Claim C9 -/

/-- C9: the `FTPS.sock` setter stores `None` or a TLS-wrapped socket; a
plain socket gets wrapped in the control channel's context, and a socket
that is already TLS-wrapped (in the program this is always the control
context) is stored as-is with no second wrapping. -/
theorem C9_sock_setter_invariant (ctx : Nat) (v : Option PySocket)
    (h : ∀ c s, v = some (PySocket.wrapped c s) → c = ctx) :
    (setSock ctx v = none ∨
      ∃ s, setSock ctx v = some (PySocket.wrapped ctx s))
    ∧ (∀ s, v = some s → isSSL s = true → setSock ctx v = some s) := by
  rcases v with _ | s
  · exact ⟨Or.inl rfl, fun s hs => by cases hs⟩
  · rcases s with i | ⟨c, inner⟩
    · refine ⟨Or.inr ⟨PySocket.plain i, rfl⟩, ?_⟩
      intro s hs hssl
      injection hs with hs
      rw [← hs] at hssl
      simp [isSSL] at hssl
    · have hc : c = ctx := h c inner rfl
      subst hc
      exact ⟨Or.inr ⟨inner, rfl⟩, fun s hs _ => by rw [← Option.some.inj hs]; rfl⟩

theorem C9_sock_setter_invariant_witness :
    (∀ c s, (some (PySocket.wrapped 7 (PySocket.plain 3)) : Option PySocket) =
        some (PySocket.wrapped c s) → c = 7)
    ∧ ((setSock 7 (some (PySocket.wrapped 7 (PySocket.plain 3))) = none ∨
        ∃ s, setSock 7 (some (PySocket.wrapped 7 (PySocket.plain 3))) =
          some (PySocket.wrapped 7 s))
      ∧ (∀ s, (some (PySocket.wrapped 7 (PySocket.plain 3)) : Option PySocket) = some s →
          isSSL s = true →
          setSock 7 (some (PySocket.wrapped 7 (PySocket.plain 3))) = some s)) := by
  have hhyp : ∀ c s, (some (PySocket.wrapped 7 (PySocket.plain 3)) : Option PySocket) =
      some (PySocket.wrapped c s) → c = 7 := by
    intro c s hcs
    injection hcs with hcs
    injection hcs with hc hs
    exact hc.symm
  exact ⟨hhyp, C9_sock_setter_invariant 7 _ hhyp⟩

/-! ## Claim C10 -/

/-- C10: there is a valid archive with plate-set size 2 (≠ 1) carrying a
metadata member without a `'.'` in its name, on which `split` raises
(`fn.split('.', 1)` cannot be unpacked) instead of yielding outputs. -/
theorem C10_split_raises_without_dot :
    gcodeCount archiveNoDotMember = 2
    ∧ chars "Metadata/noext" ∈ namelist archiveNoDotMember.entries
    ∧ '.' ∉ chars "Metadata/noext"
    ∧ parseFile archiveNoDotMember = none := by
  decide

/-! ## Helper lemmas about the upload trace -/

theorem countP_pre_zero (p : Printer) (outs : List (List Char × OutContent)) :
    (uploadPre p outs).countP isPublish = 0 := by
  unfold uploadPre
  simp only [List.countP_cons]
  rw [List.countP_map]
  have hcomp : (isPublish ∘ fun o : List Char × OutContent => Event.ftpStor o.1 o.2) =
      fun _ => false := funext fun o => rfl
  rw [hcomp]
  simp [isPublish]

theorem mem_pre_not_publish (p : Printer) (outs : List (List Char × OutContent)) :
    ∀ e ∈ uploadPre p outs, isPublish e = false := by
  intro e he
  unfold uploadPre at he
  simp only [List.mem_cons, List.mem_map] at he
  rcases he with rfl | rfl | rfl | ⟨o, -, rfl⟩ <;> rfl

theorem filterMap_stor_pre (p : Printer) (outs : List (List Char × OutContent)) :
    (uploadPre p outs).filterMap storName = outs.map Prod.fst := by
  unfold uploadPre
  simp only [List.filterMap_cons, storName]
  rw [List.filterMap_map]
  have hcomp : (storName ∘ fun o : List Char × OutContent => Event.ftpStor o.1 o.2) =
      fun o : List Char × OutContent => some o.1 := funext fun o => rfl
  rw [hcomp]
  exact congrFun (List.filterMap_eq_map Prod.fst) outs

/-! ## Claim C6 -/

/-- C6 counterexample: the flag value `True` (not the claim's literal
`true`) also triggers a publish, because server.py line 181 lowercases the
form value before comparing. -/
theorem C6_counterexample :
    upload examplePrinter (some (chars "True")) testArchive1 = some exampleTrace
    ∧ exampleTrace.countP isPublish = 1
    ∧ ¬ chars "True" = chars "true" := by
  decide

/-- C6 (amended): for an upload request that runs to completion, a
control-channel message is published iff the print flag's string form,
ASCII-lowercased, equals `true` (an absent flag reads as `False`); when
published there is exactly one message, it is the last event of the trace
(so it follows every file transfer), its topic is `device/<serial>/request`,
its `url` is `file:///sdcard/model/` followed by the first transferred
filename, and its `param` is the canonical plate-1 machine-code path
regardless of plate count. -/
theorem C6_upload_publish (p : Printer) (flag : Option (List Char))
    (u : UploadFile) (tr : List Event) (h : upload p flag u = some tr) :
    tr.countP isPublish = (if doPrint flag then 1 else 0)
    ∧ (∀ e ∈ tr.dropLast, isPublish e = false)
    ∧ (doPrint flag = true →
        tr.getLast? = some (Event.mqttPublish (printTopic p)
          (PrintCommand.mk (chars "Metadata/plate_1.gcode")
            (chars "file:///sdcard/model/" ++ pyFormatOpt (firstStorName tr))
            p.print_options))) := by
  unfold upload at h
  rcases hpf : parseFile u with _ | outs
  · rw [hpf] at h; cases h
  · simp only [hpf] at h
    by_cases hdp : doPrint flag = true
    · rw [if_pos hdp] at h
      injection h with h
      subst h
      have hfs : firstStorName (uploadPre p outs ++
          [Event.mqttPublish (printTopic p) (printCommand p (outs.map Prod.fst).head?)]) =
          (outs.map Prod.fst).head? := by
        unfold firstStorName
        rw [List.filterMap_append, filterMap_stor_pre]
        simp [storName]
      refine ⟨?_, ?_, ?_⟩
      · rw [List.countP_append, countP_pre_zero, if_pos hdp]
        rfl
      · rw [List.dropLast_concat]
        exact mem_pre_not_publish p outs
      · intro _
        rw [List.getLast?_concat, hfs]
        rfl
    · rw [if_neg hdp] at h
      injection h with h
      subst h
      rw [Bool.not_eq_true] at hdp
      refine ⟨?_, ?_, ?_⟩
      · rw [hdp]
        simpa using countP_pre_zero p outs
      · intro e he
        exact mem_pre_not_publish p outs e (List.dropLast_subset _ he)
      · intro hcontra
        rw [hdp] at hcontra
        cases hcontra

theorem C6_upload_publish_witness :
    exampleTrace.countP isPublish = (if doPrint (some (chars "true")) then 1 else 0)
    ∧ (∀ e ∈ exampleTrace.dropLast, isPublish e = false)
    ∧ (doPrint (some (chars "true")) = true →
        exampleTrace.getLast? = some (Event.mqttPublish (printTopic examplePrinter)
          (PrintCommand.mk (chars "Metadata/plate_1.gcode")
            (chars "file:///sdcard/model/" ++ pyFormatOpt (firstStorName exampleTrace))
            examplePrinter.print_options))) :=
  C6_upload_publish examplePrinter (some (chars "true")) testArchive1 exampleTrace
    (by decide)

/-! ## Claim C7 -/

/-- C7 counterexample: a request for the unknown device `beta` makes the
registry lookup raise `KeyError`; the framework surfaces the unhandled
exception as HTTP 500, which is a server error, not a client error. -/
theorem C7_counterexample :
    versionHandler exampleReg (chars "beta") = (Except.error PyErr.keyError, [])
    ∧ httpStatusVersion (versionHandler exampleReg (chars "beta")).1 = 500
    ∧ isClientError 500 = false :=
  ⟨rfl, rfl, by decide⟩

/-- C7 (amended): every request naming a device absent from the registry
fails with the unhandled lookup error — surfaced by the HTTP layer as a 500
server error rather than a client error — and attempts no network
connections: both handlers produce an empty event trace. -/
theorem C7_unknown_device (reg : List (List Char × Printer)) (pname : List Char)
    (h : lookupPrinter reg pname = none) :
    versionHandler reg pname = (Except.error PyErr.keyError, [])
    ∧ (∀ flag u, uploadHandler reg pname flag u = (Except.error PyErr.keyError, []))
    ∧ httpStatusVersion (versionHandler reg pname).1 = 500 := by
  refine ⟨?_, ?_, ?_⟩
  · simp [versionHandler, h]
  · intro flag u
    simp [uploadHandler, h]
  · simp [versionHandler, h, httpStatusVersion]

theorem C7_unknown_device_witness :
    versionHandler exampleReg (chars "beta") = (Except.error PyErr.keyError, [])
    ∧ (∀ flag u, uploadHandler exampleReg (chars "beta") flag u =
        (Except.error PyErr.keyError, []))
    ∧ httpStatusVersion (versionHandler exampleReg (chars "beta")).1 = 500 :=
  C7_unknown_device exampleReg (chars "beta") (by decide)
